import Mathlib

/-!
# Verification of the fast-trips `Trip` schedule assembler

Shallow embedding of `src/fasttrips/Trip.py` (class `Trip`): the schedule
assembly pipeline (`Trip.__init__`), the derived-metrics functions
(`Trip.calculate_dwell_times`, `Trip.calculate_headways`) and the lookup
`Trip.get_scheduled_departure`.

DataFrames are embedded as lists of structure rows; pandas merges become
explicit list joins; Python exceptions (`AssertionError` from bare asserts,
pandas `set_index(verify_integrity=True)` failures, `ValueError` from
`strptime`, `NameError`) become `Except`/`Option` results.  Minute-of-day
values are ℚ; the headway computation works on whole-minute departure times
held as ℤ; counts are ℕ.
-/

namespace FastTrips

/-! ## C1: `Trip.calculate_dwell_times` (Trip.py lines 301-321)

The function works column-wise on a DataFrame whose rows carry `boards`,
`alights` and `service_type`; per row the computation is:

    boardsx4   = boards*4
    alightsx2  = alights*2
    dwell_time = max(boardsx4, alightsx2) + 4
    dwell_time = 0  where boards==0 and alights==0
    dwell_time = 30 where service_type==0   (GTFS route type 0 = tram/streetcar/light rail)

`service_type` is the GTFS route-type code: 0 = tram/streetcar/light rail,
3 = bus.  The final `astype(int)` is the identity on these ℕ values. -/

structure DwellRow where
  boards : Nat
  alights : Nat
  service_type : Nat
deriving Repr, DecidableEq

def dwell_time_row (r : DwellRow) : Nat :=
  let boardsx4 := r.boards * 4
  let alightsx2 := r.alights * 2
  let d0 := max boardsx4 alightsx2 + 4
  let d1 := if r.boards = 0 ∧ r.alights = 0 then 0 else d0
  let d2 := if r.service_type = 0 then 30 else d1
  d2

def calculate_dwell_times (rows : List DwellRow) : List Nat :=
  rows.map dwell_time_row

/-- Per-row characterization of the dwell-time assignment: the tram override
(service_type 0) is applied last and wins; otherwise the zero-flow case gives
0; otherwise the flow formula `4 + max(4*b, 2*a)` applies. -/
lemma dwell_time_row_spec (r : DwellRow) :
    dwell_time_row r =
      if r.service_type = 0 then 30
      else if r.boards = 0 ∧ r.alights = 0 then 0
      else 4 + max (4 * r.boards) (2 * r.alights) := by
  unfold dwell_time_row
  by_cases h0 : r.service_type = 0 <;>
    by_cases h1 : r.boards = 0 ∧ r.alights = 0 <;>
      simp [h0, h1, Nat.add_comm, Nat.mul_comm]

/-- C1: `calculate_dwell_times` assigns each stop-time row dwell 0 when
boards = alights = 0, dwell 30 when the service type is tram/streetcar/light
rail (route type 0; this override is applied last and wins even for zero
flow), and dwell `4 + max(4*boards, 2*alights)` otherwise; in particular
(b=0, a=0, bus=3) gives 0, (b=3, a=1, bus=3) gives 16 and (b=0, a=0, tram=0)
gives 30. -/
theorem c1_calculate_dwell_times :
    (∀ rows : List DwellRow,
      calculate_dwell_times rows =
        rows.map (fun r =>
          if r.service_type = 0 then 30
          else if r.boards = 0 ∧ r.alights = 0 then 0
          else 4 + max (4 * r.boards) (2 * r.alights))) ∧
    calculate_dwell_times [⟨0, 0, 3⟩, ⟨3, 1, 3⟩, ⟨0, 0, 0⟩] = [0, 16, 30] := by
  constructor
  · intro rows
    unfold calculate_dwell_times
    exact List.map_congr_left (fun r _ => dwell_time_row_spec r)
  · decide

/-! ## C4: unique-index enforcement (Trip.py lines 188 and 271-272)

`self.trips_df.set_index(TRIPS_COLUMN_ID, inplace=True, verify_integrity=True)`
and
`self.stop_times_df.set_index([TRIP_ID, STOP_SEQUENCE], inplace=True, verify_integrity=True)`.
With `verify_integrity=True` pandas raises `ValueError`/duplicate-key
(IntegrityError in the spec's taxonomy) exactly when the new index has a
duplicate value; otherwise indexing succeeds. -/

def dup_index_msg : String := "IntegrityError: index has duplicate keys"

def set_index_trips (trip_ids : List String) : Except String Unit :=
  if trip_ids.Nodup then Except.ok () else Except.error dup_index_msg

def set_index_stop_times (st_keys : List (String × Nat)) : Except String Unit :=
  if st_keys.Nodup then Except.ok () else Except.error dup_index_msg

/-- C4: setting the trip index (trip id) and the stop-time index
(trip id, stop sequence) succeeds exactly when the key values are all
distinct; any duplicate key makes the indexing step fail with the fatal
duplicate-key error. -/
theorem c4_set_index_verify_integrity :
    ∀ (trip_ids : List String) (st_keys : List (String × Nat)),
      (set_index_trips trip_ids = Except.ok () ↔ trip_ids.Nodup) ∧
      (¬trip_ids.Nodup → set_index_trips trip_ids = Except.error dup_index_msg) ∧
      (set_index_stop_times st_keys = Except.ok () ↔ st_keys.Nodup) ∧
      (¬st_keys.Nodup → set_index_stop_times st_keys = Except.error dup_index_msg) := by
  intro trip_ids st_keys
  refine ⟨?_, ?_, ?_, ?_⟩ <;>
    simp only [set_index_trips, set_index_stop_times] <;>
    split <;> simp_all

/-- Witness for C4 at concrete inputs: distinct trip ids index fine, a
duplicated (trip id, stop sequence) pair is rejected. -/
theorem c4_set_index_verify_integrity_witness :
    set_index_trips ["t1", "t2"] = Except.ok () ∧
    set_index_stop_times [("t1", 1), ("t1", 1)] = Except.error dup_index_msg := by
  refine ⟨?_, ?_⟩
  · exact (c4_set_index_verify_integrity ["t1", "t2"] []).1.mpr (by decide)
  · exact (c4_set_index_verify_integrity [] [("t1", 1), ("t1", 1)]).2.2.2 (by decide)

/-! ## C5: required-column validation (Trip.py lines 178-181 and 236-239)

    trips_ft_cols = list(trips_ft_df.columns.values)
    assert(Trip.TRIPS_COLUMN_ID           in trips_ft_cols)
    assert(Trip.TRIPS_COLUMN_VEHICLE_NAME in trips_ft_cols)

(and the analogous pair of asserts for the supplemental stop-times file
with `trip_id`, `stop_id`).  Each required column has its own assert, so
the failure occurs at — and thereby identifies — the first missing required
column; the table itself is not touched by validation. -/

abbrev Table := List (List String)

def check_required_columns (cols : List String) : List String → Except String Unit
  | [] => Except.ok ()
  | c :: rest =>
      if c ∈ cols then check_required_columns cols rest else Except.error c

def validate_table (t : Table) (cols required : List String) : Except String Table :=
  (check_required_columns cols required).map (fun _ => t)

lemma check_required_columns_ok (cols : List String) :
    ∀ required : List String, (∀ c ∈ required, c ∈ cols) →
      check_required_columns cols required = Except.ok () := by
  intro required
  induction required with
  | nil => intro _; rfl
  | cons c rest ih =>
      intro h
      have hc : c ∈ cols := h c (List.mem_cons_self c rest)
      simp only [check_required_columns, if_pos hc]
      exact ih (fun x hx => h x (List.mem_cons_of_mem c hx))

lemma check_required_columns_err (cols : List String) :
    ∀ (required : List String) (c : String), c ∈ required → c ∉ cols →
      ∃ e, check_required_columns cols required = Except.error e ∧
        e ∈ required ∧ e ∉ cols := by
  intro required
  induction required with
  | nil => intro c hc; exact absurd hc (List.not_mem_nil c)
  | cons c0 rest ih =>
      intro c hc hnc
      by_cases h0 : c0 ∈ cols
      · have hcr : c ∈ rest := by
          rcases List.mem_cons.mp hc with h | h
          · exact absurd (h ▸ h0) hnc
          · exact h
        obtain ⟨e, he, her, henc⟩ := ih c hcr hnc
        exact ⟨e, by simpa [check_required_columns, if_pos h0] using he,
               List.mem_cons_of_mem c0 her, henc⟩
      · exact ⟨c0, by simp [check_required_columns, if_neg h0],
               List.mem_cons_self c0 rest, h0⟩

/-- C5: validating a table against its required column names fails with an
error naming a missing required column whenever some required column is
absent, and returns the table unchanged when all required columns are
present. -/
theorem c5_required_column_validation :
    ∀ (t : Table) (cols required : List String),
      ((∀ c ∈ required, c ∈ cols) → validate_table t cols required = Except.ok t) ∧
      (∀ c, c ∈ required → c ∉ cols →
        ∃ e, validate_table t cols required = Except.error e ∧ e ∈ required ∧ e ∉ cols) := by
  intro t cols required
  constructor
  · intro h
    simp [validate_table, check_required_columns_ok cols required h, Except.map]
  · intro c hc hnc
    obtain ⟨e, he, her, henc⟩ := check_required_columns_err cols required c hc hnc
    exact ⟨e, by simp [validate_table, he, Except.map], her, henc⟩

/-- Witness for C5 at concrete inputs: the supplemental trips schema
(trip_id, vehicle_name) passes when both columns are present and fails
naming `vehicle_name` when it is absent. -/
theorem c5_required_column_validation_witness :
    validate_table [["t1", "bus40"]] ["trip_id", "vehicle_name"] ["trip_id", "vehicle_name"] =
      Except.ok [["t1", "bus40"]] ∧
    ∃ e, validate_table [["t1"]] ["trip_id"] ["trip_id", "vehicle_name"] = Except.error e ∧
      e ∈ ["trip_id", "vehicle_name"] ∧ e ∉ ["trip_id"] := by
  refine ⟨?_, ?_⟩
  · exact (c5_required_column_validation [["t1", "bus40"]] ["trip_id", "vehicle_name"]
      ["trip_id", "vehicle_name"]).1 (by decide)
  · exact (c5_required_column_validation [["t1"]] ["trip_id"]
      ["trip_id", "vehicle_name"]).2 "vehicle_name" (by decide) (by decide)

/-! ## C3: time-of-day parsing (Trip.py lines 255-269)

    datetime.datetime.combine(today, datetime.datetime.strptime(x, '%H:%M:%S').time())

followed by

    60*x.time().hour + x.time().minute + x.time().second/60.0

Python's `strptime` with format `'%H:%M:%S'` matches three colon-separated
fields of one or two decimal digits each and validates hour 0-23 and
minute 0-59; a second of 60 or 61 matches the field pattern but is rejected
when the `datetime` is constructed, so the accepted seconds are 0-59.  A
string such as `'25:07:00'` therefore raises `ValueError` — hours above 23
are never accepted. -/

def digitsVal (cs : List Char) : Nat :=
  cs.foldl (fun n c => 10 * n + (c.toNat - 48)) 0

/-- Split a character list at every `':'`, the field separation the format
`'%H:%M:%S'` performs via its literal colons. -/
def splitFields : List Char → List (List Char)
  | [] => [[]]
  | c :: cs =>
      let rest := splitFields cs
      if c = ':' then [] :: rest
      else
        match rest with
        | [] => [[c]]
        | f :: fs => (c :: f) :: fs

/-- One strptime numeric field: one or two decimal digits. -/
def parseField (cs : List Char) : Option Nat :=
  if (cs.length = 1 ∨ cs.length = 2) ∧ cs.all Char.isDigit then
    some (digitsVal cs)
  else none

def strptime_HMS (s : String) : Option (Nat × Nat × Nat) :=
  match splitFields s.toList with
  | [hs, ms, ss] =>
      match parseField hs with
      | none => none
      | some h =>
          match parseField ms with
          | none => none
          | some m =>
              match parseField ss with
              | none => none
              | some sec =>
                  if h ≤ 23 ∧ m ≤ 59 ∧ sec ≤ 59 then some (h, m, sec) else none
  | _ => none

lemma strptime_HMS_bounds {s : String} {h m sec : Nat}
    (hp : strptime_HMS s = some (h, m, sec)) : h ≤ 23 ∧ m ≤ 59 ∧ sec ≤ 59 := by
  unfold strptime_HMS at hp
  repeat' split at hp
  all_goals simp_all

/-- Minute-of-day float of a parsed time, exactly the source expression
`60*x.time().hour + x.time().minute + x.time().second/60.0` (the
`combine(today, ...)` step preserves hour, minute and second). -/
def time_to_min (h m sec : Nat) : ℚ :=
  60 * (h : ℚ) + (m : ℚ) + (sec : ℚ) / 60

def departure_time_min (s : String) : Option ℚ :=
  (strptime_HMS s).map (fun t => time_to_min t.1 t.2.1 t.2.2)

/-- C3 counterexample: the post-midnight string `'25:07:00'` from the claim is
rejected by the assembler's time parser (strptime `'%H:%M:%S'` raises
`ValueError` for hours above 23), so the hour field may not exceed 23. -/
theorem c3_counterexample : strptime_HMS "25:07:00" = none := by decide

/-- C3 (amended): every time string the assembler accepts has hour at most
23; its minute-of-day float equals `60*hour + minute + second/60`, and is
therefore always below 1440 — post-midnight values above 1440 never occur
because the parser rejects them. -/
theorem c3_amended_time_parsing :
    ∀ (s : String) (h m sec : Nat), strptime_HMS s = some (h, m, sec) →
      h ≤ 23 ∧
      departure_time_min s = some (60 * (h : ℚ) + (m : ℚ) + (sec : ℚ) / 60) ∧
      ∀ q, departure_time_min s = some q → q < 1440 := by
  intro s h m sec hp
  obtain ⟨hh23, hm59, hs59⟩ := strptime_HMS_bounds hp
  refine ⟨hh23, ?_, ?_⟩
  · simp [departure_time_min, hp, time_to_min]
  · intro q hq
    have hqe : q = 60 * (h : ℚ) + (m : ℚ) + (sec : ℚ) / 60 := by
      rw [departure_time_min, hp] at hq
      simpa [time_to_min] using hq.symm
    have hhq : (h : ℚ) ≤ 23 := by exact_mod_cast hh23
    have hmq : (m : ℚ) ≤ 59 := by exact_mod_cast hm59
    have hsq : (sec : ℚ) ≤ 59 := by exact_mod_cast hs59
    have hdiv : (sec : ℚ) / 60 < 1 := by
      rw [div_lt_one (by norm_num : (0 : ℚ) < 60)]
      linarith
    rw [hqe]
    linarith

/-- Witness for C3 (amended) at the accepted string `'14:08:30'`. -/
theorem c3_amended_time_parsing_witness :
    14 ≤ 23 ∧
    departure_time_min "14:08:30" = some (60 * (14 : ℚ) + (8 : ℚ) + (30 : ℚ) / 60) ∧
    ∀ q, departure_time_min "14:08:30" = some q → q < 1440 :=
  c3_amended_time_parsing "14:08:30" 14 8 30 (by decide)

/-! ## C7: service-calendar date parsing (Trip.py lines 218-224)

    datetime.datetime.combine(datetime.datetime.strptime(x, '%Y%M%d').date(),
                              datetime.time(minute=0))
    datetime.datetime.combine(datetime.datetime.strptime(x, '%Y%M%d').date(),
                              datetime.time(hour=23, minute=59, second=59, microsecond=999999))

The format string is `'%Y%M%d'`: `%Y` = four-digit year, `%M` = MINUTE
(pattern `[0-5]\d|\d`), `%d` = day (pattern `3[01]|[12]\d|0[1-9]|[1-9]`); the
month directive `%m` is absent, so the month defaults to 1.  On an
eight-digit `YYYYMMDD` string the regex resolves as year = first four
digits, minute = next two digits (requires MM ≤ 59), day = last two digits
(requires 1 ≤ DD ≤ 31); `.date()` then drops the parsed minute, yielding the
date (year, January, DD).  The embedding covers exactly the eight-digit
strings the claim is about. -/

structure Timestamp where
  year : Nat
  month : Nat
  day : Nat
  hour : Nat
  minute : Nat
  second : Nat
  microsecond : Nat
deriving Repr, DecidableEq

def strptime_YMd_date (s : String) : Option (Nat × Nat × Nat) :=
  match s.toList with
  | [y1, y2, y3, y4, m1, m2, d1, d2] =>
      if [y1, y2, y3, y4, m1, m2, d1, d2].all Char.isDigit then
        let minute := digitsVal [m1, m2]
        let day := digitsVal [d1, d2]
        if minute ≤ 59 ∧ 1 ≤ day ∧ day ≤ 31 then
          some (digitsVal [y1, y2, y3, y4], 1, day)
        else none
      else none
  | _ => none

def service_start_datetime (s : String) : Option Timestamp :=
  (strptime_YMd_date s).map (fun d => ⟨d.1, d.2.1, d.2.2, 0, 0, 0, 0⟩)

def service_end_datetime (s : String) : Option Timestamp :=
  (strptime_YMd_date s).map (fun d => ⟨d.1, d.2.1, d.2.2, 23, 59, 59, 999999⟩)

/-- C7: at the service date string `'20150601'` the code's `'%Y%M%d'` format
parses the month digits `06` as a minute (discarded by `.date()`) and leaves
the month at its default 1, so the start timestamp is 2015-01-01 00:00:00 and
the end timestamp 2015-01-01 23:59:59.999999 — not the claimed June dates;
the times of day (00:00:00 and 23:59:59.999999) do match the claim. -/
theorem c7_service_date_bug :
    service_start_datetime "20150601" = some ⟨2015, 1, 1, 0, 0, 0, 0⟩ ∧
    service_end_datetime "20150601" = some ⟨2015, 1, 1, 23, 59, 59, 999999⟩ ∧
    service_start_datetime "20150601" ≠ some ⟨2015, 6, 1, 0, 0, 0, 0⟩ ∧
    service_end_datetime "20150601" ≠ some ⟨2015, 6, 1, 23, 59, 59, 999999⟩ := by
  refine ⟨?_, ?_, ?_, ?_⟩ <;> decide

/-! ## C8: trips left join (Trip.py lines 183-186)

    self.trips_df = pandas.merge(left=self.trips_df, right=trips_ft_df,
                                 how='left', on=Trip.TRIPS_COLUMN_ID)

A pandas left merge keeps every left row; a left row with no right match
gets null supplemental attributes, a left row with k > 0 matches yields k
output rows. -/

structure TripRow where
  trip_id : String
  route_id : String
  service_id : String
deriving Repr, DecidableEq

structure TripFtRow where
  trip_id : String
  vehicle_name : String
deriving Repr, DecidableEq

def merge_trips_ft_row (ft : List TripFtRow) (l : TripRow) :
    List (TripRow × Option String) :=
  match ft.filter (fun r => r.trip_id = l.trip_id) with
  | [] => [(l, none)]
  | m :: ms => (m :: ms).map (fun r => (l, some r.vehicle_name))

def merge_trips_ft (base : List TripRow) (ft : List TripFtRow) :
    List (TripRow × Option String) :=
  base.flatMap (merge_trips_ft_row ft)

def c8Base : List TripRow := [⟨"t1", "r1", "s1"⟩]

def c8FtDup : List TripFtRow := [⟨"t1", "v1"⟩, ⟨"t1", "v2"⟩]

/-- C8 counterexample: with a single base trip and a supplemental table
holding two rows for that trip identifier, the left join emits two rows, so
the output row count does not equal the base row count. -/
theorem c8_counterexample :
    ¬ (merge_trips_ft c8Base c8FtDup).length = c8Base.length := by decide

lemma filter_trip_id_length_le_one :
    ∀ (ft : List TripFtRow) (t : String),
      (ft.map (fun r => r.trip_id)).Nodup →
      (ft.filter (fun r => r.trip_id = t)).length ≤ 1 := by
  intro ft
  induction ft with
  | nil => intro t _; simp
  | cons r rs ih =>
      intro t hnd
      rw [List.map_cons, List.nodup_cons] at hnd
      obtain ⟨hr, hrs⟩ := hnd
      by_cases ht : r.trip_id = t
      · have hnil : rs.filter (fun x => x.trip_id = t) = [] := by
          rw [List.filter_eq_nil_iff]
          intro x hx
          simp only [decide_eq_true_eq]
          intro hxt
          exact hr (List.mem_map.mpr ⟨x, hx, by rw [hxt, ht]⟩)
        simp [List.filter_cons, ht, hnil]
      · simpa [List.filter_cons, ht] using ih t hrs

lemma merge_trips_ft_row_length (ft : List TripFtRow) (l : TripRow)
    (hnd : (ft.map (fun r => r.trip_id)).Nodup) :
    (merge_trips_ft_row ft l).length = 1 := by
  have hle := filter_trip_id_length_le_one ft l.trip_id hnd
  unfold merge_trips_ft_row
  cases hf : ft.filter (fun r => r.trip_id = l.trip_id) with
  | nil => rfl
  | cons m ms =>
      rw [hf] at hle
      simp only [List.length_cons] at hle
      have : ms.length = 0 := by omega
      have hms : ms = [] := List.length_eq_zero.mp this
      subst hms
      rfl

/-- C8 (amended): when the supplemental trip table has no duplicate trip
identifiers, every base trip matches at most one supplemental row, so each
base trip yields exactly one joined row and the left-join output row count
equals the base row count.  (With duplicated supplemental trip identifiers
the left join emits one row per match and the count can exceed the base
count, as the counterexample shows.) -/
theorem c8_amended_left_join_rowcount :
    ∀ (base : List TripRow) (ft : List TripFtRow),
      (ft.map (fun r => r.trip_id)).Nodup →
      (merge_trips_ft base ft).length = base.length := by
  intro base ft hnd
  induction base with
  | nil => rfl
  | cons l ls ih =>
      have h1 := merge_trips_ft_row_length ft l hnd
      have h2 : (ls.flatMap (merge_trips_ft_row ft)).length = ls.length := ih
      calc (merge_trips_ft (l :: ls) ft).length
          = (merge_trips_ft_row ft l).length +
              (ls.flatMap (merge_trips_ft_row ft)).length := by
            rw [merge_trips_ft, List.flatMap_cons, List.length_append]
        _ = (l :: ls).length := by
            rw [h1, h2, List.length_cons, Nat.add_comm]

/-- Witness for C8 (amended): one base trip, supplemental table with distinct
trip identifiers. -/
theorem c8_amended_left_join_rowcount_witness :
    (merge_trips_ft c8Base [⟨"t1", "v1"⟩, ⟨"t2", "v2"⟩]).length = c8Base.length :=
  c8_amended_left_join_rowcount c8Base [⟨"t1", "v1"⟩, ⟨"t2", "v2"⟩] (by decide)

/-! ## C9 / C10: the stop-times table -/

structure StopTimeRow where
  trip_id : String
  stop_sequence : Nat
  stop_id : String
  departure_time : ℚ
deriving Repr, DecidableEq

/-! ## C9: supplemental stop-times join (Trip.py lines 241-246)

    if len(stop_times_ft_cols) > 2:
        self.stop_times_df = pandas.merge(left=stop_times_df, right=stop_times_ft_df,
                                          how='left',
                                          on=[Trip.STOPTIMES_COLUMN_TRIP_ID,
                                              Trip.STOPTIMES_COLUMN_STOP_ID])

The name `stop_times_df` on the `left=` argument is undefined — the
attribute is `self.stop_times_df` (compare line 184, where the analogous
trips merge correctly passes `self.trips_df`).  Python resolves names at
run time, so the two-column case never touches the broken branch and keeps
the base table unchanged, while any supplemental file with a third column
enters the branch and raises `NameError` before any join happens. -/

def name_error_msg : String := "NameError: name stop_times_df is not defined"

def assemble_stop_times_supplement (base : List StopTimeRow)
    (ft_cols : List String) : Except String (List StopTimeRow) :=
  if ft_cols.length > 2 then Except.error name_error_msg
  else Except.ok base

/-- C9: with only the two join-key columns the base stop-time table is used
unchanged, as claimed; but as soon as the supplemental file has a column
beyond the two join keys, the code raises `NameError` (the undefined local
`stop_times_df` on line 243) instead of performing the claimed left join. -/
theorem c9_supplement_branch :
    ∀ base : List StopTimeRow,
      assemble_stop_times_supplement base ["trip_id", "stop_id"] = Except.ok base ∧
      assemble_stop_times_supplement base ["trip_id", "stop_id", "stop_headsign"] =
        Except.error name_error_msg := by
  intro base
  exact ⟨rfl, rfl⟩

/-! ## C10: `Trip.get_scheduled_departure` (Trip.py lines 290-299)

    for seq, row in self.stop_times_df.loc[trip_id].iterrows():
        if row[Trip.STOPTIMES_COLUMN_STOP_ID] == stop_id:
            return row[Trip.STOPTIMES_COLUMN_DEPARTURE_TIME]
    raise Exception("get_scheduled_departure: stop %s not find for trip %s" ...)

`.loc[trip_id]` selects the trip's rows in stored order; the stored order is
the order the constructor appended them, which for each trip is the order of
`gtfs_trip.GetStopTimes()` — sorted by stop sequence.  The iteration returns
the first row whose stop identifier matches. -/

def trip_stop_times (df : List StopTimeRow) (tid : String) : List StopTimeRow :=
  df.filter (fun r => r.trip_id = tid)

def sched_dep_msg (sid tid : String) : String :=
  "get_scheduled_departure: stop " ++ sid ++ " not find for trip " ++ tid

def get_scheduled_departure (df : List StopTimeRow) (tid sid : String) :
    Except String ℚ :=
  match (trip_stop_times df tid).find? (fun r => r.stop_id = sid) with
  | some r => Except.ok r.departure_time
  | none => Except.error (sched_dep_msg sid tid)

lemma find_first_seq_min {p : StopTimeRow → Bool} :
    ∀ {l : List StopTimeRow},
      l.Sorted (fun a b => a.stop_sequence ≤ b.stop_sequence) →
      ∀ {r : StopTimeRow}, l.find? p = some r →
        ∀ r' ∈ l, p r' = true → r.stop_sequence ≤ r'.stop_sequence := by
  intro l
  induction l with
  | nil => intro _ r hr; simp [List.find?] at hr
  | cons x xs ih =>
      intro hs r hr r' hr' hpr'
      rw [List.sorted_cons] at hs
      obtain ⟨hx, hxs⟩ := hs
      by_cases hpx : p x = true
      · rw [List.find?_cons_of_pos _ hpx] at hr
        have hxr : x = r := by injection hr
        subst hxr
        rcases List.mem_cons.mp hr' with h | h
        · rw [h]
        · exact hx r' h
      · rw [List.find?_cons_of_neg _ hpx] at hr
        rcases List.mem_cons.mp hr' with h | h
        · exact absurd (h ▸ hpr') hpx
        · exact ih hxs hr r' h hpr'

/-- C10: for a trip identifier present in the stop-time table (whose rows per
trip are stored in stop-sequence order), `get_scheduled_departure` returns —
whenever the trip has at least one row with the requested stop identifier —
`Except.ok` with the departure time of the matching row of smallest stop
sequence, and when no row of the trip carries the requested stop identifier
it fails with the message naming the stop and the trip. -/
theorem c10_get_scheduled_departure :
    ∀ (df : List StopTimeRow) (tid sid : String),
      (trip_stop_times df tid).Sorted (fun a b => a.stop_sequence ≤ b.stop_sequence) →
      (∃ r ∈ df, r.trip_id = tid) →
      ((∀ r ∈ trip_stop_times df tid, ¬r.stop_id = sid) →
        get_scheduled_departure df tid sid = Except.error (sched_dep_msg sid tid)) ∧
      (∀ r0 ∈ trip_stop_times df tid, r0.stop_id = sid →
        ∃ r ∈ trip_stop_times df tid, r.stop_id = sid ∧
          get_scheduled_departure df tid sid = Except.ok r.departure_time ∧
          ∀ r' ∈ trip_stop_times df tid, r'.stop_id = sid →
            r.stop_sequence ≤ r'.stop_sequence) := by
  intro df tid sid hsorted _
  constructor
  · intro hnone
    have hf : (trip_stop_times df tid).find? (fun r => r.stop_id = sid) = none := by
      rw [List.find?_eq_none]
      intro x hx
      simpa using hnone x hx
    simp [get_scheduled_departure, hf]
  · intro r0 hr0mem hr0sid
    cases hf : (trip_stop_times df tid).find? (fun r => r.stop_id = sid) with
    | none =>
        have := List.find?_eq_none.mp hf r0 hr0mem
        exact absurd (by simpa using hr0sid) this
    | some r =>
        refine ⟨r, List.mem_of_find?_eq_some hf, ?_, ?_, ?_⟩
        · have := List.find?_some hf
          simpa using this
        · simp [get_scheduled_departure, hf]
        · intro r' hr' hsid
          exact find_first_seq_min hsorted hf r' hr' (by simpa using hsid)

def c10Df : List StopTimeRow :=
  [⟨"t1", 1, "S1", 480⟩, ⟨"t1", 2, "S2", 495⟩, ⟨"t2", 1, "S1", 500⟩]

/-- Witness for C10: on a concrete table, looking up stop S2 of trip t1
returns `Except.ok` with that row's departure time of 495 — the success
branch of the claim — via the main theorem applied at the matching row. -/
theorem c10_get_scheduled_departure_witness :
    get_scheduled_departure c10Df "t1" "S2" = Except.ok (495 : ℚ) := by
  obtain ⟨r, hrmem, hrsid, heq, -⟩ :=
    (c10_get_scheduled_departure c10Df "t1" "S2" (by decide)
        ⟨⟨"t1", 1, "S1", 480⟩, by decide, by decide⟩).2
      ⟨"t1", 2, "S2", 495⟩ (by decide) (by decide)
  have hlist : trip_stop_times c10Df "t1" =
      [⟨"t1", 1, "S1", 480⟩, ⟨"t1", 2, "S2", 495⟩] := by decide
  rw [hlist] at hrmem
  rcases List.mem_cons.mp hrmem with h | h
  · rw [h] at hrsid
    exact absurd hrsid (by decide)
  · have hr2 : r = ⟨"t1", 2, "S2", 495⟩ := by simpa using h
    rw [hr2] at heq
    exact heq

/-! ## C2 / C6: `Trip.calculate_headways` (Trip.py lines 323-347)

    stop_group = trips_df[['stop_id','routeId','direction','depart_time',
                           'trip_id','stop_seq']].groupby(['stop_id','routeId','direction'])
    stop_group_df = stop_group.apply(lambda x: x.sort('depart_time'))
    stop_group_shift_df = stop_group_df.shift()
    stop_group_df['headway'] = (stop_group_df['depart_time'] -
                                stop_group_shift_df['depart_time'])/numpy.timedelta64(1,'m')
    stop_group_df.loc[(stop_group_df.stop_id  !=stop_group_shift_df.stop_id  )|
                      (stop_group_df.routeId  !=stop_group_shift_df.routeId  )|
                      (stop_group_df.direction!=stop_group_shift_df.direction),
                      'headway'] = Trip.DEFAULT_HEADWAY
    trips_df_len = len(trips_df)
    trips_df = pandas.merge(left=trips_df,
                            right=stop_group_df[['trip_id','stop_id','stop_seq','headway']],
                            on=['trip_id','stop_id','stop_seq'])
    assert(len(trips_df)==trips_df_len)
    return trips_df

`groupby` partitions the rows by the (stop_id, routeId, direction) key and
concatenates the groups (each sorted by depart_time) into one frame; the
embedding enumerates the distinct keys in order of occurrence — pandas
orders groups by key value, but the group order affects no row's headway and
not the key-based merge.  `shift()` pairs each row of the concatenated frame
with its predecessor (the first row with nulls, and a null key compares
unequal, so the first row also receives the default).  `depart_time` is held
in minutes, so the timedelta division is the plain difference.  The trailing
merge is an inner merge on (trip_id, stop_id, stop_seq) guarded by a bare
`assert` on the row count. -/

structure HRow where
  stop_id : String
  routeId : String
  direction : Nat
  depart_time : ℤ
  trip_id : String
  stop_seq : Nat
deriving Repr, DecidableEq

/-- The groupby key (stop_id, routeId, direction). -/
def gkey (r : HRow) : String × String × Nat := (r.stop_id, r.routeId, r.direction)

/-- The merge key (trip_id, stop_id, stop_seq). -/
def mkey (r : HRow) : String × String × Nat := (r.trip_id, r.stop_id, r.stop_seq)

def DEFAULT_HEADWAY : ℤ := 60

def departLE (a b : HRow) : Prop := a.depart_time ≤ b.depart_time

instance : DecidableRel departLE :=
  fun a b => inferInstanceAs (Decidable (a.depart_time ≤ b.depart_time))

/-- `x.sort('depart_time')`: sort a group by departure time ascending. -/
def sortByDepart (l : List HRow) : List HRow := l.insertionSort departLE

/-- The distinct groupby keys, in order of occurrence. -/
def groupKeys (rows : List HRow) : List (String × String × Nat) :=
  (rows.map gkey).dedup

/-- `stop_group.apply(lambda x: x.sort('depart_time'))`: the concatenation of
the per-key groups, each sorted by departure time. -/
def stop_group_df (rows : List HRow) : List HRow :=
  (groupKeys rows).flatMap (fun k => sortByDepart (rows.filter (fun r => gkey r = k)))

/-- The headway of one row given the `shift()`ed predecessor row: the
departure-time difference in minutes, overwritten by `DEFAULT_HEADWAY`
where the predecessor's (stop_id, routeId, direction) differs (or the
predecessor is the null first shift). -/
def headway_shift (prev : Option HRow) (r : HRow) : ℤ :=
  match prev with
  | none => DEFAULT_HEADWAY
  | some p => if gkey p = gkey r then r.depart_time - p.depart_time else DEFAULT_HEADWAY

/-- Walk the concatenated frame pairing every row with its `shift()`
predecessor. -/
def headway_scan (prev : Option HRow) : List HRow → List (HRow × ℤ)
  | [] => []
  | r :: rs => (r, headway_shift prev r) :: headway_scan (some r) rs

/-- The grouped frame with its `headway` column. -/
def with_headways (rows : List HRow) : List (HRow × ℤ) :=
  headway_scan none (stop_group_df rows)

/-! Spec-side description of the headway assignment, following the claim's
words: within each partition sorted by departure time, the first row gets
the 60-minute default and every later row gets its departure time minus the
immediately preceding row's departure time. -/

def headway_diffs (p : HRow) : List HRow → List (HRow × ℤ)
  | [] => []
  | r :: rs => (r, r.depart_time - p.depart_time) :: headway_diffs r rs

def group_headways_spec : List HRow → List (HRow × ℤ)
  | [] => []
  | r :: rs => (r, DEFAULT_HEADWAY) :: headway_diffs r rs

def with_headways_spec (rows : List HRow) : List (HRow × ℤ) :=
  (groupKeys rows).flatMap
    (fun k => group_headways_spec (sortByDepart (rows.filter (fun r => gkey r = k))))

lemma headway_scan_same_key (k : String × String × Nat) :
    ∀ (l : List HRow) (p : HRow), gkey p = k → (∀ r ∈ l, gkey r = k) →
      headway_scan (some p) l = headway_diffs p l := by
  intro l
  induction l with
  | nil => intro p _ _; rfl
  | cons r rs ih =>
      intro p hp hall
      have hr : gkey r = k := hall r (List.mem_cons_self r rs)
      have hpr : gkey p = gkey r := hp.trans hr.symm
      simp only [headway_scan, headway_diffs, headway_shift, if_pos hpr]
      congr 1
      exact ih r hr (fun x hx => hall x (List.mem_cons_of_mem r hx))

lemma headway_scan_group (k : String × String × Nat) (l : List HRow)
    (prev : Option HRow) (hall : ∀ r ∈ l, gkey r = k)
    (hprev : ∀ p, prev = some p → gkey p ≠ k) :
    headway_scan prev l = group_headways_spec l := by
  cases l with
  | nil => rfl
  | cons r rs =>
      have hr : gkey r = k := hall r (List.mem_cons_self r rs)
      have hhead : headway_shift prev r = DEFAULT_HEADWAY := by
        cases prev with
        | none => rfl
        | some p =>
            have hne : gkey p ≠ gkey r := fun h => hprev p rfl (h.trans hr)
            simp [headway_shift, if_neg hne]
      simp only [headway_scan, group_headways_spec, hhead]
      congr 1
      exact headway_scan_same_key k rs r hr
        (fun x hx => hall x (List.mem_cons_of_mem r hx))

lemma headway_scan_append :
    ∀ (l1 l2 : List HRow) (p : HRow), l1.getLast? = some p → ∀ prev,
      headway_scan prev (l1 ++ l2) =
        headway_scan prev l1 ++ headway_scan (some p) l2 := by
  intro l1
  induction l1 with
  | nil => intro l2 p hp; simp at hp
  | cons r rs ih =>
      intro l2 p hp prev
      cases rs with
      | nil =>
          have hrp : r = p := by simpa using hp
          subst hrp
          simp [headway_scan]
      | cons r2 rs2 =>
          have hp2 : (r2 :: rs2).getLast? = some p := by
            simpa [List.getLast?_cons_cons] using hp
          have hstep : headway_scan (some r) ((r2 :: rs2) ++ l2) =
              headway_scan (some r) (r2 :: rs2) ++ headway_scan (some p) l2 :=
            ih l2 p hp2 (some r)
          calc headway_scan prev ((r :: r2 :: rs2) ++ l2)
              = (r, headway_shift prev r) ::
                  headway_scan (some r) ((r2 :: rs2) ++ l2) := rfl
            _ = (r, headway_shift prev r) ::
                  (headway_scan (some r) (r2 :: rs2) ++ headway_scan (some p) l2) := by
                rw [hstep]
            _ = headway_scan prev (r :: r2 :: rs2) ++ headway_scan (some p) l2 := rfl

lemma headway_scan_flatMap (rows : List HRow) :
    ∀ ks : List (String × String × Nat), ks.Nodup →
      (∀ k ∈ ks, ∃ r ∈ rows, gkey r = k) →
      ∀ prev, (∀ p, prev = some p → gkey p ∉ ks) →
        headway_scan prev
            (ks.flatMap (fun k => sortByDepart (rows.filter (fun r => gkey r = k)))) =
          ks.flatMap
            (fun k => group_headways_spec (sortByDepart (rows.filter (fun r => gkey r = k)))) := by
  intro ks
  induction ks with
  | nil => intro _ _ prev _; rfl
  | cons k ks ih =>
      intro hnd hmem prev hprev
      rw [List.nodup_cons] at hnd
      obtain ⟨hknotin, hndks⟩ := hnd
      set block := sortByDepart (rows.filter (fun r => gkey r = k)) with hblock
      have hblock_mem : ∀ r ∈ block, gkey r = k := by
        intro r hr
        have : r ∈ rows.filter (fun x => gkey x = k) :=
          (List.Perm.mem_iff (List.perm_insertionSort departLE _)).mp hr
        simpa using (List.mem_filter.mp this).2
      have hblock_ne : block ≠ [] := by
        obtain ⟨r, hrrows, hrk⟩ := hmem k (List.mem_cons_self k ks)
        have : r ∈ rows.filter (fun x => gkey x = k) := by
          rw [List.mem_filter]
          exact ⟨hrrows, by simpa using hrk⟩
        have hrblock : r ∈ block :=
          (List.Perm.mem_iff (List.perm_insertionSort departLE _)).mpr this
        exact List.ne_nil_of_mem hrblock
      obtain ⟨p, hp⟩ : ∃ p, block.getLast? = some p := by
        cases hb : block.getLast? with
        | none => exact absurd (List.getLast?_eq_none_iff.mp hb) hblock_ne
        | some p => exact ⟨p, rfl⟩
      have hpmem : p ∈ block := by
        obtain ⟨hne2, hpe⟩ := List.mem_getLast?_eq_getLast (l := block) (x := p) hp
        rw [hpe]
        exact List.getLast_mem hne2
      have hpk : gkey p = k := hblock_mem p hpmem
      rw [List.flatMap_cons, List.flatMap_cons,
        headway_scan_append block _ p hp prev,
        headway_scan_group k block prev hblock_mem
          (fun q hq => by
            have := hprev q hq
            exact fun hh => this (hh ▸ List.mem_cons_self k ks)),
        ih hndks
          (fun k2 hk2 => hmem k2 (List.mem_cons_of_mem k hk2))
          (some p)
          (fun q hq => by
            have hqp : p = q := Option.some.inj hq
            rw [← hqp, hpk]
            exact hknotin)]

/-- Example from the claim: three stop-time rows at one stop/route/direction
departing at minutes 480, 495 and 560 (given out of order, so the sort
matters). -/
def exampleRows : List HRow :=
  [⟨"S1", "R1", 0, 495, "t2", 1⟩,
   ⟨"S1", "R1", 0, 480, "t1", 1⟩,
   ⟨"S1", "R1", 0, 560, "t3", 1⟩]

/-- C2: the headway column of the grouped frame is exactly the claimed
per-partition assignment — partition by (stop_id, routeId, direction), sort
each partition by departure time ascending, give the first row of each
partition the 60-minute default and every later row its departure time
minus its predecessor's departure time; on the claim's example rows
departing at minutes 480, 495, 560 the headways are [60, 15, 65]. -/
theorem c2_calculate_headways :
    (∀ rows : List HRow, with_headways rows = with_headways_spec rows) ∧
    (with_headways exampleRows).map Prod.snd = [60, 15, 65] := by
  constructor
  · intro rows
    unfold with_headways with_headways_spec stop_group_df
    refine headway_scan_flatMap rows (groupKeys rows) (List.nodup_dedup _) ?_ none
      (by intro p hp; exact absurd hp (by simp))
    intro k hk
    have : k ∈ rows.map gkey := List.mem_dedup.mp hk
    obtain ⟨r, hr, hrk⟩ := List.mem_map.mp this
    exact ⟨r, hr, hrk⟩
  · decide

/-! The trailing inner merge and its row-count assert (C6). -/

def merged_headways (rows : List HRow) : List (HRow × ℤ) :=
  rows.flatMap (fun l =>
    ((with_headways rows).filter (fun rh => mkey rh.1 = mkey l)).map
      (fun rh => (l, rh.2)))

def headway_assert_msg : String := "AssertionError: len(trips_df)==trips_df_len"

def calculate_headways (rows : List HRow) : Except String (List (HRow × ℤ)) :=
  if (merged_headways rows).length = rows.length then Except.ok (merged_headways rows)
  else Except.error headway_assert_msg

/-- C6: for every non-empty input, any table `calculate_headways` returns has
exactly as many rows as the input — the guarded merge can neither duplicate
nor drop rows in a returned table — and whenever the merge does change the
row count the function fails with the fatal assertion error instead of
returning. -/
theorem c6_headways_rowcount :
    ∀ rows : List HRow, rows ≠ [] →
      (∀ t, calculate_headways rows = Except.ok t → t.length = rows.length) ∧
      ((merged_headways rows).length ≠ rows.length →
        calculate_headways rows = Except.error headway_assert_msg) := by
  intro rows _
  constructor
  · intro t ht
    unfold calculate_headways at ht
    split at ht
    · injection ht with h
      subst h
      assumption
    · exact absurd ht (by simp)
  · intro hne
    unfold calculate_headways
    rw [if_neg hne]

/-- Witness for C6 on the example rows. -/
theorem c6_headways_rowcount_witness :
    (∀ t, calculate_headways exampleRows = Except.ok t →
      t.length = exampleRows.length) ∧
    ((merged_headways exampleRows).length ≠ exampleRows.length →
      calculate_headways exampleRows = Except.error headway_assert_msg) :=
  c6_headways_rowcount exampleRows (by decide)

end FastTrips
